import Mathlib

/-!
Verification of the spatial-interpolation and nearest-station subsystem of
the dashboard-climatico repository.

Modelling conventions:
* Python floats are modelled by `ℚ`; a `NaN`/missing measurement value is
  modelled by `Option ℚ` with `none` for missing.  The properties settled
  here are structural and do not depend on floating-point rounding.
* `geopy.distance.geodesic(p, q).km` is a call into an external library;
  the resolver theorems are therefore proved for an arbitrary distance
  function `dist : ℚ × ℚ → ℚ × ℚ → ℚ`, hence in particular for the
  geodesic one.
* Python dicts preserve insertion order, so the station mapping is
  modelled as a `List (String × ℚ × ℚ)` in insertion order, and the dict
  of per-station tables as a `List (String × List (ℚ × ℚ))` whose rows
  carry the `(Latitude, Longitude)` columns read by the code.
* Fallible code (the unguarded `df['Latitude'].iloc[0]`, which raises
  `IndexError` on an empty table) is modelled with `Except Unit`.
-/

/-- src/utils.py, `localizar_estacao_proxima`: scan the station mapping in
insertion order, keeping the strictly closest station seen so far.  The
Python initial distance `float("inf")` is modelled by the `Option`
accumulator: the first station always replaces the empty accumulator, which
matches the Python code because geodesic distances are finite. -/
def localizar_estacao_proxima (dist : ℚ × ℚ → ℚ × ℚ → ℚ)
    (lat_user lon_user : ℚ) (estacoes_coords : List (String × ℚ × ℚ)) :
    Option String :=
  (estacoes_coords.foldl
    (fun acc e =>
      let d := dist (lat_user, lon_user) (e.2.1, e.2.2)
      match acc with
      | none => some (e.1, d)
      | some p => if d < p.2 then some (e.1, d) else some p)
    none).map Prod.fst

/-- Stable insertion step used to model Python's stable `list.sort` with
the distance component as key. -/
def insereOrdenado (x : String × ℚ) : List (String × ℚ) → List (String × ℚ)
  | [] => [x]
  | y :: l => if x.2 ≤ y.2 then x :: y :: l else y :: insereOrdenado x l

/-- Stable sort by the distance component (extensionally equal to Python's
stable `estacoes.sort(key=lambda x: x[1])`). -/
def ordenaPorDistancia (l : List (String × ℚ)) : List (String × ℚ) :=
  l.foldr insereOrdenado []

/-- The loop of src/app.py, `encontrar_estacao_proxima`: for every station
read `df['Latitude'].iloc[0]` / `df['Longitude'].iloc[0]` (the first row)
and pair the station name with its distance to the user point.  A station
with an empty table makes `iloc[0]` raise `IndexError`, modelled as
`Except.error ()`. -/
def coletaDistancias (dist : ℚ × ℚ → ℚ × ℚ → ℚ) (u : ℚ × ℚ) :
    List (String × List (ℚ × ℚ)) → Except Unit (List (String × ℚ))
  | [] => .ok []
  | e :: resto =>
    match e.2.head? with
    | none => .error ()
    | some c =>
      match coletaDistancias dist u resto with
      | .error x => .error x
      | .ok l => .ok ((e.1, dist u c) :: l)

/-- src/app.py, `encontrar_estacao_proxima`: collect (name, distance)
pairs, sort them stably by distance and return the first name, or `none`
for an empty station dict. -/
def encontrar_estacao_proxima (dist : ℚ × ℚ → ℚ × ℚ → ℚ)
    (lat_user lon_user : ℚ) (dfs : List (String × List (ℚ × ℚ))) :
    Except Unit (Option String) :=
  match coletaDistancias dist (lat_user, lon_user) dfs with
  | .error x => .error x
  | .ok estacoes => .ok ((ordenaPorDistancia estacoes).head?.map Prod.fst)

/-- One step of the first-minimum search on (name, distance) pairs; the
update is strict, so on ties the earlier pair is kept. -/
def passoMenor (acc : Option (String × ℚ)) (x : String × ℚ) :
    Option (String × ℚ) :=
  match acc with
  | none => some x
  | some p => if x.2 < p.2 then some x else some p

/-- First pair attaining the minimal distance, in list order. -/
def primeiroMinimo (l : List (String × ℚ)) : Option (String × ℚ) :=
  l.foldl passoMenor none

/-- A concrete distance function (squared euclidean in degree space) used
only to instantiate the abstract `dist` parameter in witnesses. -/
def distExemplo : ℚ × ℚ → ℚ × ℚ → ℚ :=
  fun p q => (p.1 - q.1) ^ 2 + (p.2 - q.2) ^ 2

def coordsExemplo : List (String × ℚ × ℚ) :=
  [("Garibaldi", 1, 1), ("Bento", 0, 1)]

def dfsExemplo : List (String × List (ℚ × ℚ)) :=
  [("Garibaldi", [(1, 1)]), ("Bento", [(0, 1), (9, 9)])]

def dfsVazio : List (String × List (ℚ × ℚ)) := [("Garibaldi", [])]

/-- Modelled from the spec: one observation of the SampleSet fed to the
spatial interpolator — latitude, longitude and a possibly missing value
(`none` models NaN).  The scipy-griddata-based interpolation routine
described in the spec is not present under src/ (src/utils.py's
`mapa_interpolado` only renders a folium heat map), so the interpolator
itself is modelled from the spec below. -/
structure Sample where
  latitude : ℚ
  longitude : ℚ
  value : Option ℚ
deriving DecidableEq

/-- A rectangular grid of estimates; `none` is a NaN hole. -/
abbrev Grid := List (List (Option ℚ))

/-- An external scattered-interpolation method (the library's cubic or
linear griddata): from the valid samples and the two query axes it
produces a grid, or `none` when the library raises internally. -/
abbrev Interp := List Sample → List ℚ → List ℚ → Option Grid

/-- Samples whose value is present (NaN-valued samples are excluded from
the fit input entirely). -/
def validSamples (samples : List Sample) : List Sample :=
  samples.filter (fun s => s.value.isSome)

def latsValidas (samples : List Sample) : List ℚ :=
  (validSamples samples).map (fun s => s.latitude)

def lonsValidas (samples : List Sample) : List ℚ :=
  (validSamples samples).map (fun s => s.longitude)

def coordsValidas (samples : List Sample) : List (ℚ × ℚ) :=
  (validSamples samples).map (fun s => (s.latitude, s.longitude))

/-- Minimum of a list of rationals (0 on the empty list, which every use
below guards against). -/
def minQ : List ℚ → ℚ
  | [] => 0
  | [x] => x
  | x :: y :: l => min x (minQ (y :: l))

def maxQ : List ℚ → ℚ
  | [] => 0
  | [x] => x
  | x :: y :: l => max x (maxQ (y :: l))

/-- Modelled from the spec: the numpy-style linspace with `n` points from
`a` to `b` used to build the grid axes. -/
def linspace (a b : ℚ) (n : ℕ) : List ℚ :=
  (List.range n).map (fun i : ℕ => a + (b - a) * (i : ℚ) / ((n : ℚ) - 1))

def allNaN (g : Grid) : Bool :=
  g.all (fun row => row.all (fun c => c.isNone))

/-- Squared distance in raw latitude/longitude degrees (the spec fixes raw
degrees, no projection correction). -/
def sqDist (la lo x y : ℚ) : ℚ := (la - x) ^ 2 + (lo - y) ^ 2

/-- First sample (in list order) attaining the minimal squared distance to
the query point. -/
def nearestSample : List Sample → ℚ → ℚ → Option Sample
  | [], _, _ => none
  | s :: ss, x, y =>
    match nearestSample ss x y with
    | none => some s
    | some t =>
      if sqDist s.latitude s.longitude x y ≤ sqDist t.latitude t.longitude x y
      then some s else some t

/-- Modelled from the spec: the nearest-neighbor fallback of last resort,
covering the entire grid. -/
def nearestGrid (valid : List Sample) (xs ys : List ℚ) : Grid :=
  xs.map (fun x => ys.map (fun y => (nearestSample valid x y).bind (fun s => s.value)))

/-- Result of `interpolate`: an explicit failure tag or the two coordinate
axes together with the grid. -/
inductive InterpResult where
  | insufficientSamples : InterpResult
  | degenerateGeometry : InterpResult
  | allMissingValues : InterpResult
  | ok : List ℚ → List ℚ → Grid → InterpResult
deriving DecidableEq

def latAxis (samples : List Sample) (n : ℕ) : List ℚ :=
  linspace (minQ (latsValidas samples)) (maxQ (latsValidas samples)) n

def lonAxis (samples : List Sample) (n : ℕ) : List ℚ :=
  linspace (minQ (lonsValidas samples)) (maxQ (lonsValidas samples)) n

/-- Modelled from the spec: the tail of the fallback ladder — linear
interpolation, then nearest-neighbor when linear raises or returns an
all-NaN grid. -/
def fallbackLinear (linearM : Interp) (valid : List Sample) (xs ys : List ℚ) :
    InterpResult :=
  match linearM valid xs ys with
  | some g =>
    if allNaN g then .ok xs ys (nearestGrid valid xs ys) else .ok xs ys g
  | none => .ok xs ys (nearestGrid valid xs ys)

/-- Modelled from the spec: `interpolate(samples, grid_resolution)` —
guard `InsufficientSamples` for fewer than 3 valid samples, guard
`DegenerateGeometry` for a zero-extent bounding box, then the fallback
ladder: cubic (only for at least 4 valid samples) → linear →
nearest-neighbor, falling through on a library exception (`none`) or an
all-NaN result.  The external cubic and linear methods are parameters. -/
def interpolate (cubicM linearM : Interp) (samples : List Sample) (n : ℕ) :
    InterpResult :=
  if (validSamples samples).length < 3 then .insufficientSamples
  else if minQ (latsValidas samples) = maxQ (latsValidas samples)
      ∨ minQ (lonsValidas samples) = maxQ (lonsValidas samples) then
    .degenerateGeometry
  else if 4 ≤ (validSamples samples).length then
    match cubicM (validSamples samples) (latAxis samples n) (lonAxis samples n) with
    | some g =>
      if allNaN g then
        fallbackLinear linearM (validSamples samples) (latAxis samples n)
          (lonAxis samples n)
      else .ok (latAxis samples n) (lonAxis samples n) g
    | none =>
      fallbackLinear linearM (validSamples samples) (latAxis samples n)
        (lonAxis samples n)
  else
    fallbackLinear linearM (validSamples samples) (latAxis samples n)
      (lonAxis samples n)

/-- The sample points lie on one line a*lat + b*lon = c. -/
def collinearPts (pts : List (ℚ × ℚ)) : Prop :=
  ∃ a b c : ℚ, ¬(a = 0 ∧ b = 0) ∧ ∀ p ∈ pts, a * p.1 + b * p.2 = c

def metodoFalha : Interp := fun _ _ _ => none

def metodoConstante : Interp := fun _ _ _ => some [[some 5]]

def amostrasPoucas : List Sample := [⟨0, 0, some 1⟩, ⟨3, 4, none⟩]

def amostrasDegeneradas : List Sample := [⟨1, 1, some 5⟩, ⟨1, 2, some 6⟩]

def amostrasDegeneradasTres : List Sample :=
  [⟨1, 1, some 5⟩, ⟨1, 2, some 6⟩, ⟨1, 3, some 7⟩]

def amostrasTres : List Sample :=
  [⟨0, 0, some 1⟩, ⟨0, 1, some 2⟩, ⟨1, 0, some 3⟩]

def amostrasQuatro : List Sample :=
  [⟨0, 0, some 1⟩, ⟨0, 1, some 2⟩, ⟨1, 0, some 3⟩, ⟨1, 1, some 4⟩]

theorem foldl_passoMenor_some (l : List (String × ℚ)) :
    ∀ p : String × ℚ,
      l.foldl passoMenor (some p) =
        match primeiroMinimo l with
        | none => some p
        | some m => some (if m.2 < p.2 then m else p) := by
  induction l with
  | nil => intro p; rfl
  | cons x xs ih =>
    intro p
    have hpm : primeiroMinimo (x :: xs) = xs.foldl passoMenor (some x) := rfl
    have hstep : passoMenor (some p) x = some (if x.2 < p.2 then x else p) := by
      simp only [passoMenor]
      split <;> rfl
    show xs.foldl passoMenor (passoMenor (some p) x) = _
    rw [hstep, ih]
    rw [show primeiroMinimo (x :: xs) = xs.foldl passoMenor (some x) from rfl, ih x]
    rcases primeiroMinimo xs with _ | m
    · rfl
    · rcases p with ⟨pn, pd⟩
      rcases x with ⟨xn, xd⟩
      rcases m with ⟨mn, md⟩
      dsimp only
      split_ifs <;> first | rfl | (exfalso; linarith)

theorem primeiroMinimo_cons (x : String × ℚ) (xs : List (String × ℚ)) :
    primeiroMinimo (x :: xs) =
      match primeiroMinimo xs with
      | none => some x
      | some m => some (if m.2 < x.2 then m else x) := by
  show xs.foldl passoMenor (some x) = _
  exact foldl_passoMenor_some xs x

theorem primeiroMinimo_isSome (l : List (String × ℚ)) (h : l ≠ []) :
    ∃ m, primeiroMinimo l = some m := by
  cases l with
  | nil => exact absurd rfl h
  | cons x xs =>
    rw [primeiroMinimo_cons]
    rcases primeiroMinimo xs with _ | m
    · exact ⟨x, rfl⟩
    · exact ⟨if m.2 < x.2 then m else x, rfl⟩

theorem primeiroMinimo_eq_none (l : List (String × ℚ)) :
    primeiroMinimo l = none ↔ l = [] := by
  constructor
  · intro h
    by_contra hne
    obtain ⟨m, hm⟩ := primeiroMinimo_isSome l hne
    rw [h] at hm
    exact Option.noConfusion hm
  · intro h; subst h; rfl

/-- The first minimum really is a first minimum: it splits the list into a
strictly-greater initial segment, itself, and a tail, and it is a lower
bound of the whole list. -/
theorem primeiroMinimo_decomp :
    ∀ (l : List (String × ℚ)) (m : String × ℚ), primeiroMinimo l = some m →
      ∃ l1 l2, l = l1 ++ m :: l2 ∧ (∀ x ∈ l, m.2 ≤ x.2) ∧
        ∀ x ∈ l1, m.2 < x.2 := by
  intro l
  induction l with
  | nil => intro m hm; exact Option.noConfusion hm
  | cons x xs ih =>
    intro m hm
    rw [primeiroMinimo_cons] at hm
    rcases hmx : primeiroMinimo xs with _ | m'
    · rw [hmx] at hm
      simp only [Option.some.injEq] at hm
      subst hm
      have hxs : xs = [] := (primeiroMinimo_eq_none xs).mp hmx
      subst hxs
      exact ⟨[], [], rfl, by simp, by simp⟩
    · rw [hmx] at hm
      simp only [Option.some.injEq] at hm
      obtain ⟨l1, l2, hsplit, hlb, hstrict⟩ := ih m' hmx
      by_cases hlt : m'.2 < x.2
      · rw [if_pos hlt] at hm
        subst hm
        refine ⟨x :: l1, l2, by rw [hsplit]; rfl, ?_, ?_⟩
        · intro z hz
          rcases List.mem_cons.mp hz with hz | hz
          · subst hz; exact le_of_lt hlt
          · exact hlb z hz
        · intro z hz
          rcases List.mem_cons.mp hz with hz | hz
          · subst hz; exact hlt
          · exact hstrict z hz
      · rw [if_neg hlt] at hm
        subst hm
        push_neg at hlt
        refine ⟨[], xs, rfl, ?_, by simp⟩
        intro z hz
        rcases List.mem_cons.mp hz with hz | hz
        · subst hz; exact le_refl _
        · exact le_trans hlt (hlb z hz)

/-- `localizar_estacao_proxima` is the first minimum of the keyed list. -/
theorem localizar_eq_primeiroMinimo (dist : ℚ × ℚ → ℚ × ℚ → ℚ)
    (lat_user lon_user : ℚ) (coords : List (String × ℚ × ℚ)) :
    localizar_estacao_proxima dist lat_user lon_user coords =
      (primeiroMinimo (coords.map
        (fun e => (e.1, dist (lat_user, lon_user) (e.2.1, e.2.2))))).map
        Prod.fst := by
  unfold localizar_estacao_proxima primeiroMinimo
  rw [List.foldl_map]
  congr 1

/-- Splitting a mapped list pulls the decomposition back to the original
list. -/
theorem map_split {α β : Type} (f : α → β) :
    ∀ (l : List α) (k1 : List β) (m : β) (k2 : List β),
      l.map f = k1 ++ m :: k2 →
      ∃ l1 e l2, l = l1 ++ e :: l2 ∧ f e = m ∧ l1.map f = k1 ∧
        l2.map f = k2 := by
  intro l
  induction l with
  | nil =>
    intro k1 m k2 h
    exact absurd h (by simp)
  | cons a as ih =>
    intro k1 m k2 h
    cases k1 with
    | nil =>
      simp only [List.map_cons, List.nil_append] at h
      injection h with h1 h2
      exact ⟨[], a, as, rfl, h1, rfl, h2⟩
    | cons b bs =>
      simp only [List.map_cons, List.cons_append] at h
      injection h with h1 h2
      obtain ⟨l1, e, l2, hsplit, hfe, hmap1, hmap2⟩ := ih bs m k2 h2
      exact ⟨a :: l1, e, l2, by rw [hsplit]; rfl, hfe,
        by simp [hmap1, h1], hmap2⟩

theorem insereOrdenado_head (x : String × ℚ) (l : List (String × ℚ)) :
    (insereOrdenado x l).head? =
      some (match l.head? with
            | none => x
            | some y => if x.2 ≤ y.2 then x else y) := by
  cases l with
  | nil => rfl
  | cons y ys =>
    show (if x.2 ≤ y.2 then x :: y :: ys else y :: insereOrdenado x ys).head? = _
    dsimp only [List.head?]
    split_ifs <;> rfl

theorem insereOrdenado_length (x : String × ℚ) (l : List (String × ℚ)) :
    (insereOrdenado x l).length = l.length + 1 := by
  induction l with
  | nil => rfl
  | cons y ys ih =>
    show (if x.2 ≤ y.2 then x :: y :: ys else y :: insereOrdenado x ys).length = _
    split_ifs <;> simp [ih]

theorem ordenaPorDistancia_length (l : List (String × ℚ)) :
    (ordenaPorDistancia l).length = l.length := by
  induction l with
  | nil => rfl
  | cons x xs ih =>
    show (insereOrdenado x (ordenaPorDistancia xs)).length = _
    rw [insereOrdenado_length, ih]
    rfl

/-- The head of the stable sort is the first pair attaining the minimal
distance. -/
theorem ordenaPorDistancia_head (l : List (String × ℚ)) :
    (ordenaPorDistancia l).head? = primeiroMinimo l := by
  induction l with
  | nil => rfl
  | cons x xs ih =>
    show (insereOrdenado x (ordenaPorDistancia xs)).head? = _
    rw [insereOrdenado_head, ih, primeiroMinimo_cons]
    rcases primeiroMinimo xs with _ | m
    · rfl
    · dsimp only
      split_ifs <;> first | rfl | (exfalso; linarith)

/-- When every station table's first row matches the coordinate mapping,
the collection loop succeeds and produces exactly the keyed mapping. -/
theorem coletaDistancias_ok (dist : ℚ × ℚ → ℚ × ℚ → ℚ) (u : ℚ × ℚ) :
    ∀ (dfs : List (String × List (ℚ × ℚ))) (coords : List (String × ℚ × ℚ)),
      dfs.map (fun e => (e.1, e.2.head?)) =
        coords.map (fun e => (e.1, some e.2)) →
      coletaDistancias dist u dfs =
        .ok (coords.map (fun e => (e.1, dist u (e.2.1, e.2.2)))) := by
  intro dfs
  induction dfs with
  | nil =>
    intro coords h
    cases coords with
    | nil => rfl
    | cons c cs => exact absurd h (by simp)
  | cons e resto ih =>
    intro coords h
    cases coords with
    | nil => exact absurd h (by simp)
    | cons c cs =>
      simp only [List.map_cons] at h
      injection h with h1 h2
      injection h1 with hname hhead
      show (match e.2.head? with
            | none => Except.error ()
            | some cc =>
              match coletaDistancias dist u resto with
              | .error x => .error x
              | .ok l => .ok ((e.1, dist u cc) :: l)) = _
      rw [hhead, ih cs h2, hname]
      rfl

/-- A station with an empty table makes the collection loop fail (the
`iloc[0]` IndexError). -/
theorem coletaDistancias_error (dist : ℚ × ℚ → ℚ × ℚ → ℚ) (u : ℚ × ℚ) :
    ∀ dfs : List (String × List (ℚ × ℚ)),
      (∃ e ∈ dfs, e.2 = []) → coletaDistancias dist u dfs = .error () := by
  intro dfs
  induction dfs with
  | nil =>
    rintro ⟨e, he, -⟩
    exact absurd he (List.not_mem_nil e)
  | cons x resto ih =>
    rintro ⟨e, he, hnil⟩
    show (match x.2.head? with
          | none => Except.error ()
          | some cc =>
            match coletaDistancias dist u resto with
            | .error y => .error y
            | .ok l => .ok ((x.1, dist u cc) :: l)) = _
    rcases List.mem_cons.mp he with he | he
    · subst he
      rw [hnil]
      rfl
    · cases hx : x.2.head? with
      | none => rfl
      | some c =>
        rw [ih ⟨e, he, hnil⟩]

/-- When every station table is non-empty the collection loop succeeds
with one pair per station. -/
theorem coletaDistancias_total (dist : ℚ × ℚ → ℚ × ℚ → ℚ) (u : ℚ × ℚ) :
    ∀ dfs : List (String × List (ℚ × ℚ)),
      (∀ e ∈ dfs, e.2 ≠ []) →
      ∃ l, coletaDistancias dist u dfs = .ok l ∧ l.length = dfs.length := by
  intro dfs
  induction dfs with
  | nil => exact fun _ => ⟨[], rfl, rfl⟩
  | cons x resto ih =>
    intro h
    have hx : x.2 ≠ [] := h x (List.mem_cons_self x resto)
    obtain ⟨c, hc⟩ : ∃ c, x.2.head? = some c := by
      cases hxl : x.2 with
      | nil => exact absurd hxl hx
      | cons a l => exact ⟨a, rfl⟩
    obtain ⟨l, hl, hlen⟩ := ih (fun e he => h e (List.mem_cons_of_mem x he))
    refine ⟨(x.1, dist u c) :: l, ?_, by simp [hlen]⟩
    show (match x.2.head? with
          | none => Except.error ()
          | some cc =>
            match coletaDistancias dist u resto with
            | .error y => .error y
            | .ok l => .ok ((x.1, dist u cc) :: l)) = _
    rw [hc, hl]

/-- C1: for every non-empty station mapping and every user point, the
nearest-station resolver `localizar_estacao_proxima` returns the name of a
station attaining the minimum distance to the user point, and every
station listed before it in insertion order is strictly farther away (so a
tie is resolved in favour of the first minimum in insertion order).
Proved for an arbitrary distance function, hence in particular for the
geodesic great-circle distance in kilometers computed by geopy. -/
theorem localizar_primeiro_minimo (dist : ℚ × ℚ → ℚ × ℚ → ℚ)
    (lat_user lon_user : ℚ) (coords : List (String × ℚ × ℚ))
    (h : coords ≠ []) :
    ∃ l1 e l2, coords = l1 ++ e :: l2 ∧
      localizar_estacao_proxima dist lat_user lon_user coords = some e.1 ∧
      (∀ x ∈ coords,
        dist (lat_user, lon_user) (e.2.1, e.2.2) ≤
          dist (lat_user, lon_user) (x.2.1, x.2.2)) ∧
      ∀ x ∈ l1,
        dist (lat_user, lon_user) (e.2.1, e.2.2) <
          dist (lat_user, lon_user) (x.2.1, x.2.2) := by
  obtain ⟨m, hm⟩ := primeiroMinimo_isSome
    (coords.map (fun e => (e.1, dist (lat_user, lon_user) (e.2.1, e.2.2))))
    (by
      intro hc
      exact h (List.map_eq_nil_iff.mp hc))
  obtain ⟨k1, k2, hsplit, hlb, hstrict⟩ := primeiroMinimo_decomp _ m hm
  obtain ⟨l1, e, l2, hl, hfe, hmap1, hmap2⟩ :=
    map_split (fun e => (e.1, dist (lat_user, lon_user) (e.2.1, e.2.2)))
      coords k1 m k2 hsplit
  refine ⟨l1, e, l2, hl, ?_, ?_, ?_⟩
  · rw [localizar_eq_primeiroMinimo, hm, ← hfe]
    rfl
  · intro x hx
    have hmem : (x.1, dist (lat_user, lon_user) (x.2.1, x.2.2)) ∈
        coords.map (fun e => (e.1, dist (lat_user, lon_user) (e.2.1, e.2.2))) :=
      List.mem_map_of_mem _ hx
    have hle := hlb _ hmem
    rw [← hfe] at hle
    exact hle
  · intro x hx
    have hmem : (x.1, dist (lat_user, lon_user) (x.2.1, x.2.2)) ∈ k1 := by
      rw [← hmap1]
      exact List.mem_map_of_mem _ hx
    have hlt := hstrict _ hmem
    rw [← hfe] at hlt
    exact hlt

theorem localizar_primeiro_minimo_witness :
    coordsExemplo ≠ [] ∧
    ∃ l1 e l2, coordsExemplo = l1 ++ e :: l2 ∧
      localizar_estacao_proxima distExemplo 0 0 coordsExemplo = some e.1 ∧
      (∀ x ∈ coordsExemplo,
        distExemplo (0, 0) (e.2.1, e.2.2) ≤ distExemplo (0, 0) (x.2.1, x.2.2)) ∧
      ∀ x ∈ l1,
        distExemplo (0, 0) (e.2.1, e.2.2) < distExemplo (0, 0) (x.2.1, x.2.2) :=
  ⟨by simp [coordsExemplo],
    localizar_primeiro_minimo distExemplo 0 0 coordsExemplo
      (by simp [coordsExemplo])⟩

/-- C7: with an empty station mapping both resolvers return the explicit
absent value (`None` in Python): they do not raise and cannot fabricate a
name. -/
theorem resolver_mapa_vazio (dist : ℚ × ℚ → ℚ × ℚ → ℚ) (u v : ℚ) :
    localizar_estacao_proxima dist u v [] = none ∧
    encontrar_estacao_proxima dist u v [] = .ok none :=
  ⟨rfl, rfl⟩

/-- C8: both resolvers are deterministic — two calls with identical
distance function, identical user coordinates and identical station data
return identical results (the functions are pure; there is no hidden
state). -/
theorem resolver_deterministico (dist dist' : ℚ × ℚ → ℚ × ℚ → ℚ)
    (u u' v v' : ℚ) (coords coords' : List (String × ℚ × ℚ))
    (dfs dfs' : List (String × List (ℚ × ℚ)))
    (hdist : dist = dist') (hu : u = u') (hv : v = v')
    (hcoords : coords = coords') (hdfs : dfs = dfs') :
    localizar_estacao_proxima dist u v coords =
      localizar_estacao_proxima dist' u' v' coords' ∧
    encontrar_estacao_proxima dist u v dfs =
      encontrar_estacao_proxima dist' u' v' dfs' := by
  subst hdist; subst hu; subst hv; subst hcoords; subst hdfs
  exact ⟨rfl, rfl⟩

theorem resolver_deterministico_witness :
    localizar_estacao_proxima distExemplo 0 0 coordsExemplo =
      localizar_estacao_proxima distExemplo 0 0 coordsExemplo ∧
    encontrar_estacao_proxima distExemplo 0 0 dfsExemplo =
      encontrar_estacao_proxima distExemplo 0 0 dfsExemplo :=
  resolver_deterministico distExemplo distExemplo 0 0 0 0
    coordsExemplo coordsExemplo dfsExemplo dfsExemplo rfl rfl rfl rfl rfl

/-- C9: the two resolver implementations agree whenever the coordinate in
the first row of each station's table (as `encontrar_estacao_proxima`
reads it) equals that station's entry in the coordinate mapping (as
`localizar_estacao_proxima` reads it), in the same insertion order —
including on ties (both keep the first minimum) and on the empty station
set (both return the absent value). -/
theorem encontrar_equivale_localizar (dist : ℚ × ℚ → ℚ × ℚ → ℚ) (u v : ℚ)
    (dfs : List (String × List (ℚ × ℚ))) (coords : List (String × ℚ × ℚ))
    (hrel : dfs.map (fun e => (e.1, e.2.head?)) =
      coords.map (fun e => (e.1, some e.2))) :
    encontrar_estacao_proxima dist u v dfs =
      .ok (localizar_estacao_proxima dist u v coords) := by
  have hco := coletaDistancias_ok dist (u, v) dfs coords hrel
  unfold encontrar_estacao_proxima
  rw [hco]
  show Except.ok ((ordenaPorDistancia (coords.map
      (fun e => (e.1, dist (u, v) (e.2.1, e.2.2))))).head?.map Prod.fst) = _
  rw [ordenaPorDistancia_head, ← localizar_eq_primeiroMinimo]

theorem encontrar_equivale_localizar_witness :
    dfsExemplo.map (fun e => (e.1, e.2.head?)) =
      coordsExemplo.map (fun e => (e.1, some e.2)) ∧
    encontrar_estacao_proxima distExemplo 0 0 dfsExemplo =
      .ok (localizar_estacao_proxima distExemplo 0 0 coordsExemplo) :=
  ⟨rfl, encontrar_equivale_localizar distExemplo 0 0 dfsExemplo coordsExemplo rfl⟩

/-- C10: `encontrar_estacao_proxima` reads the first table row without a
guard: with a non-empty station dict in which some station's table has
zero rows the call fails (the modelled `IndexError`) instead of returning
the absent value, while under the precondition that the dict is non-empty
and every table has at least one row no error is reachable and a station
name is always returned. -/
theorem encontrar_indexacao_primeira_linha :
    (∀ (dist : ℚ × ℚ → ℚ × ℚ → ℚ) (u v : ℚ)
        (dfs : List (String × List (ℚ × ℚ))),
      dfs ≠ [] → (∃ e ∈ dfs, e.2 = []) →
      encontrar_estacao_proxima dist u v dfs = .error ()) ∧
    ∀ (dist : ℚ × ℚ → ℚ × ℚ → ℚ) (u v : ℚ)
        (dfs : List (String × List (ℚ × ℚ))),
      dfs ≠ [] → (∀ e ∈ dfs, e.2 ≠ []) →
      ∃ nome, encontrar_estacao_proxima dist u v dfs = .ok (some nome) := by
  constructor
  · intro dist u v dfs _ hempty
    unfold encontrar_estacao_proxima
    rw [coletaDistancias_error dist (u, v) dfs hempty]
  · intro dist u v dfs hne hall
    obtain ⟨l, hl, hlen⟩ := coletaDistancias_total dist (u, v) dfs hall
    have hlne : l ≠ [] := by
      intro h0
      subst h0
      exact hne (List.length_eq_zero.mp hlen.symm)
    obtain ⟨m, hm⟩ : ∃ m, (ordenaPorDistancia l).head? = some m := by
      rw [ordenaPorDistancia_head]
      exact primeiroMinimo_isSome l hlne
    refine ⟨m.1, ?_⟩
    unfold encontrar_estacao_proxima
    rw [hl]
    show Except.ok ((ordenaPorDistancia l).head?.map Prod.fst) = _
    rw [hm]
    rfl

theorem encontrar_indexacao_primeira_linha_witness :
    encontrar_estacao_proxima distExemplo 0 0 dfsVazio = .error () ∧
    ∃ nome, encontrar_estacao_proxima distExemplo 0 0 dfsExemplo =
      .ok (some nome) :=
  ⟨encontrar_indexacao_primeira_linha.1 distExemplo 0 0 dfsVazio
      (by simp [dfsVazio]) ⟨("Garibaldi", []), by simp [dfsVazio], rfl⟩,
    encontrar_indexacao_primeira_linha.2 distExemplo 0 0 dfsExemplo
      (by simp [dfsExemplo]) (by
        intro e he
        simp only [dfsExemplo, List.mem_cons] at he
        rcases he with he | he | he
        · subst he; simp
        · subst he; simp
        · exact absurd he (List.not_mem_nil e))⟩

theorem minQ_le (x : ℚ) (l : List ℚ) : ∀ a ∈ x :: l, minQ (x :: l) ≤ a := by
  induction l generalizing x with
  | nil =>
    intro a ha
    rcases List.mem_cons.mp ha with ha | ha
    · subst ha; exact le_refl _
    · exact absurd ha (List.not_mem_nil a)
  | cons y ys ih =>
    intro a ha
    have hmin : minQ (x :: y :: ys) = min x (minQ (y :: ys)) := rfl
    rcases List.mem_cons.mp ha with ha | ha
    · subst ha; rw [hmin]; exact min_le_left _ _
    · rw [hmin]; exact le_trans (min_le_right _ _) (ih y a ha)

theorem le_maxQ (x : ℚ) (l : List ℚ) : ∀ a ∈ x :: l, a ≤ maxQ (x :: l) := by
  induction l generalizing x with
  | nil =>
    intro a ha
    rcases List.mem_cons.mp ha with ha | ha
    · subst ha; exact le_refl _
    · exact absurd ha (List.not_mem_nil a)
  | cons y ys ih =>
    intro a ha
    have hmax : maxQ (x :: y :: ys) = max x (maxQ (y :: ys)) := rfl
    rcases List.mem_cons.mp ha with ha | ha
    · subst ha; rw [hmax]; exact le_max_left _ _
    · rw [hmax]; exact le_trans (ih y a ha) (le_max_right _ _)

theorem eq_minQ_of_minQ_eq_maxQ (l : List ℚ) (hl : l ≠ [])
    (h : minQ l = maxQ l) : ∀ a ∈ l, a = minQ l := by
  cases l with
  | nil => exact absurd rfl hl
  | cons x t =>
    intro a ha
    have h1 := minQ_le x t a ha
    have h2 := le_maxQ x t a ha
    rw [← h] at h2
    exact le_antisymm h2 h1

theorem minQ_lt_maxQ_of_ne (l : List ℚ) (hl : l ≠ [])
    (h : minQ l ≠ maxQ l) : minQ l < maxQ l := by
  cases l with
  | nil => exact absurd rfl hl
  | cons x t =>
    refine lt_of_le_of_ne ?_ h
    exact le_trans (minQ_le x t x (List.mem_cons_self x t))
      (le_maxQ x t x (List.mem_cons_self x t))

/-- Non-collinear valid samples have a bounding box of nonzero extent in
both axes: an all-equal latitude (or longitude) list would put every point
on one axis-parallel line. -/
theorem naoColinear_extensao (samples : List Sample)
    (hne : validSamples samples ≠ [])
    (hnc : ¬ collinearPts (coordsValidas samples)) :
    minQ (latsValidas samples) ≠ maxQ (latsValidas samples) ∧
    minQ (lonsValidas samples) ≠ maxQ (lonsValidas samples) := by
  have hlne : latsValidas samples ≠ [] := by
    intro h0
    exact hne (List.map_eq_nil_iff.mp h0)
  have holne : lonsValidas samples ≠ [] := by
    intro h0
    exact hne (List.map_eq_nil_iff.mp h0)
  constructor
  · intro heq
    apply hnc
    refine ⟨1, 0, minQ (latsValidas samples), by simp, ?_⟩
    intro p hp
    obtain ⟨s, hs, hsp⟩ := List.mem_map.mp hp
    have hp1 : p.1 ∈ latsValidas samples := by
      refine List.mem_map.mpr ⟨s, hs, ?_⟩
      rw [← hsp]
    have := eq_minQ_of_minQ_eq_maxQ (latsValidas samples) hlne heq p.1 hp1
    rw [one_mul, zero_mul, add_zero]
    exact this
  · intro heq
    apply hnc
    refine ⟨0, 1, minQ (lonsValidas samples), by simp, ?_⟩
    intro p hp
    obtain ⟨s, hs, hsp⟩ := List.mem_map.mp hp
    have hp2 : p.2 ∈ lonsValidas samples := by
      refine List.mem_map.mpr ⟨s, hs, ?_⟩
      rw [← hsp]
    have := eq_minQ_of_minQ_eq_maxQ (lonsValidas samples) holne heq p.2 hp2
    rw [one_mul, zero_mul, zero_add]
    exact this

theorem linspace_length (a b : ℚ) (n : ℕ) : (linspace a b n).length = n := by
  simp [linspace]

theorem linspace_mem_left (a b : ℚ) (n : ℕ) (hn : 1 ≤ n) :
    a ∈ linspace a b n := by
  refine List.mem_map.mpr ⟨0, List.mem_range.mpr (by omega), ?_⟩
  norm_num

theorem linspace_mem_right (a b : ℚ) (n : ℕ) (hn : 2 ≤ n) :
    b ∈ linspace a b n := by
  refine List.mem_map.mpr ⟨n - 1, List.mem_range.mpr (by omega), ?_⟩
  have h1 : ((n - 1 : ℕ) : ℚ) = (n : ℚ) - 1 := by
    have h1n : (1 : ℕ) ≤ n := by omega
    push_cast [h1n]
    ring
  have hden : (n : ℚ) - 1 ≠ 0 := by
    have h2 : (2 : ℚ) ≤ (n : ℚ) := by exact_mod_cast hn
    linarith
  rw [h1, mul_div_assoc, div_self hden, mul_one]
  ring

theorem linspace_pairwise (a b : ℚ) (n : ℕ) (hab : a < b) (hn : 2 ≤ n) :
    (linspace a b n).Pairwise (· < ·) := by
  have hden : (0 : ℚ) < (n : ℚ) - 1 := by
    have h2 : (2 : ℚ) ≤ (n : ℚ) := by exact_mod_cast hn
    linarith
  refine List.Pairwise.map _ ?_ (List.pairwise_lt_range n)
  intro i j hij
  have hq : (i : ℚ) < (j : ℚ) := by exact_mod_cast hij
  have hmul : (b - a) * (i : ℚ) < (b - a) * (j : ℚ) :=
    mul_lt_mul_of_pos_left hq (by linarith)
  have := (div_lt_div_iff_of_pos_right hden).mpr hmul
  linarith

theorem linspace_bounds (a b : ℚ) (n : ℕ) (hab : a ≤ b) (hn : 2 ≤ n) :
    ∀ x ∈ linspace a b n, a ≤ x ∧ x ≤ b := by
  intro x hx
  obtain ⟨i, hi, hfx⟩ := List.mem_map.mp hx
  have hiN : i < n := List.mem_range.mp hi
  have hden : (0 : ℚ) < (n : ℚ) - 1 := by
    have h2 : (2 : ℚ) ≤ (n : ℚ) := by exact_mod_cast hn
    linarith
  have hiQ : (i : ℚ) ≤ (n : ℚ) - 1 := by
    have : (i : ℚ) + 1 ≤ (n : ℚ) := by exact_mod_cast hiN
    linarith
  have hnum : (0 : ℚ) ≤ (b - a) * (i : ℚ) :=
    mul_nonneg (by linarith) (by positivity)
  constructor
  · rw [← hfx]
    have : (0 : ℚ) ≤ (b - a) * (i : ℚ) / ((n : ℚ) - 1) :=
      div_nonneg hnum (le_of_lt hden)
    linarith
  · rw [← hfx]
    have hmul : (b - a) * (i : ℚ) ≤ (b - a) * ((n : ℚ) - 1) :=
      mul_le_mul_of_nonneg_left hiQ (by linarith)
    have hdiv : (b - a) * (i : ℚ) / ((n : ℚ) - 1) ≤
        (b - a) * ((n : ℚ) - 1) / ((n : ℚ) - 1) :=
      (div_le_div_iff_of_pos_right hden).mpr hmul
    have hcancel : (b - a) * ((n : ℚ) - 1) / ((n : ℚ) - 1) = b - a := by
      rw [mul_div_assoc, div_self (ne_of_gt hden), mul_one]
    linarith

theorem nearestSample_cons (s : Sample) (ss : List Sample) (x y : ℚ) :
    nearestSample (s :: ss) x y =
      match nearestSample ss x y with
      | none => some s
      | some t =>
        if sqDist s.latitude s.longitude x y ≤ sqDist t.latitude t.longitude x y
        then some s else some t := rfl

/-- The nearest-sample search always succeeds on a non-empty sample list
and returns one of its members. -/
theorem nearestSample_mem :
    ∀ (l : List Sample) (x y : ℚ), l ≠ [] →
      ∃ s, nearestSample l x y = some s ∧ s ∈ l := by
  intro l
  induction l with
  | nil => intro x y h; exact absurd rfl h
  | cons s ss ih =>
    intro x y _
    cases hss : nearestSample ss x y with
    | none =>
      refine ⟨s, ?_, List.mem_cons_self s ss⟩
      rw [nearestSample_cons, hss]
    | some t =>
      have htm : t ∈ ss := by
        cases ss with
        | nil => exact Option.noConfusion hss
        | cons a l =>
          obtain ⟨u, hu, hmem⟩ := ih x y (List.cons_ne_nil a l)
          rw [hss] at hu
          injection hu with hu
          rw [← hu] at hmem
          exact hmem
      by_cases hle : sqDist s.latitude s.longitude x y ≤
          sqDist t.latitude t.longitude x y
      · refine ⟨s, ?_, List.mem_cons_self s ss⟩
        rw [nearestSample_cons, hss]
        dsimp only
        rw [if_pos hle]
      · refine ⟨t, ?_, List.mem_cons_of_mem s htm⟩
        rw [nearestSample_cons, hss]
        dsimp only
        rw [if_neg hle]

/-- The nearest-neighbor grid has one row per latitude axis value and one
column per longitude axis value. -/
theorem nearestGrid_shape (valid : List Sample) (xs ys : List ℚ) :
    (nearestGrid valid xs ys).length = xs.length ∧
    ∀ row ∈ nearestGrid valid xs ys, row.length = ys.length := by
  constructor
  · simp [nearestGrid]
  · intro row hrow
    obtain ⟨x, hx, h⟩ := List.mem_map.mp hrow
    rw [← h]
    simp

/-- Every cell of the nearest-neighbor grid over the valid samples is
populated. -/
theorem nearestGrid_total (samples : List Sample) (xs ys : List ℚ)
    (h : validSamples samples ≠ []) :
    ∀ row ∈ nearestGrid (validSamples samples) xs ys,
      ∀ c ∈ row, c.isSome = true := by
  intro row hrow c hc
  obtain ⟨x, hx, hrow'⟩ := List.mem_map.mp hrow
  rw [← hrow'] at hc
  obtain ⟨y, hy, hc'⟩ := List.mem_map.mp hc
  obtain ⟨s, hs, hmem⟩ := nearestSample_mem (validSamples samples) x y h
  rw [← hc', hs]
  exact (List.mem_filter.mp hmem).2

theorem fallbackLinear_some (lM : Interp) (valid : List Sample)
    (xs ys : List ℚ) (g : Grid) (hg : lM valid xs ys = some g)
    (hnan : allNaN g = false) :
    fallbackLinear lM valid xs ys = .ok xs ys g := by
  unfold fallbackLinear
  rw [hg]
  simp [hnan]

theorem fallbackLinear_nearest (lM : Interp) (valid : List Sample)
    (xs ys : List ℚ)
    (h : lM valid xs ys = none ∨
      ∃ g, lM valid xs ys = some g ∧ allNaN g = true) :
    fallbackLinear lM valid xs ys = .ok xs ys (nearestGrid valid xs ys) := by
  unfold fallbackLinear
  rcases h with h | ⟨g, hg, hnan⟩
  · rw [h]
  · rw [hg]
    simp [hnan]

theorem fallbackLinear_shape (lM : Interp) (valid : List Sample)
    (xs ys : List ℚ)
    (hl : ∀ v a b g, lM v a b = some g →
      g.length = a.length ∧ ∀ row ∈ g, row.length = b.length) :
    ∃ g, fallbackLinear lM valid xs ys = .ok xs ys g ∧
      g.length = xs.length ∧ ∀ row ∈ g, row.length = ys.length := by
  unfold fallbackLinear
  cases hg : lM valid xs ys with
  | none =>
    exact ⟨nearestGrid valid xs ys, rfl, (nearestGrid_shape valid xs ys).1,
      (nearestGrid_shape valid xs ys).2⟩
  | some g =>
    by_cases hnan : allNaN g
    · refine ⟨nearestGrid valid xs ys, ?_, (nearestGrid_shape valid xs ys).1,
        (nearestGrid_shape valid xs ys).2⟩
      show (if allNaN g then InterpResult.ok xs ys (nearestGrid valid xs ys)
        else InterpResult.ok xs ys g) = _
      rw [if_pos hnan]
    · refine ⟨g, ?_, (hl _ _ _ _ hg).1, (hl _ _ _ _ hg).2⟩
      show (if allNaN g then InterpResult.ok xs ys (nearestGrid valid xs ys)
        else InterpResult.ok xs ys g) = _
      rw [if_neg hnan]

theorem interpolate_eq_ladder (cM lM : Interp) (samples : List Sample)
    (n : ℕ) (h3 : 3 ≤ (validSamples samples).length)
    (hdeg : ¬(minQ (latsValidas samples) = maxQ (latsValidas samples) ∨
      minQ (lonsValidas samples) = maxQ (lonsValidas samples))) :
    interpolate cM lM samples n =
      if 4 ≤ (validSamples samples).length then
        match cM (validSamples samples) (latAxis samples n) (lonAxis samples n) with
        | some g =>
          if allNaN g then
            fallbackLinear lM (validSamples samples) (latAxis samples n)
              (lonAxis samples n)
          else .ok (latAxis samples n) (lonAxis samples n) g
        | none =>
          fallbackLinear lM (validSamples samples) (latAxis samples n)
            (lonAxis samples n)
      else
        fallbackLinear lM (validSamples samples) (latAxis samples n)
          (lonAxis samples n) := by
  unfold interpolate
  rw [if_neg (by omega), if_neg hdeg]

/-- With exactly 3 valid samples the cubic stage is skipped entirely: the
result goes straight to the linear-then-nearest tail (or the degeneracy
guard). -/
theorem interpolate_tres_amostras (cM lM : Interp) (samples : List Sample)
    (n : ℕ) (h3 : (validSamples samples).length = 3) :
    interpolate cM lM samples n =
      if minQ (latsValidas samples) = maxQ (latsValidas samples)
          ∨ minQ (lonsValidas samples) = maxQ (lonsValidas samples) then
        .degenerateGeometry
      else
        fallbackLinear lM (validSamples samples) (latAxis samples n)
          (lonAxis samples n) := by
  unfold interpolate
  rw [if_neg (by omega)]
  by_cases hdeg : minQ (latsValidas samples) = maxQ (latsValidas samples)
      ∨ minQ (lonsValidas samples) = maxQ (lonsValidas samples)
  · rw [if_pos hdeg, if_pos hdeg]
  · rw [if_neg hdeg, if_neg hdeg, if_neg (by omega)]

/-- C2: for every SampleSet with fewer than 3 valid (non-missing) samples,
`interpolate` signals `InsufficientSamples` — an explicit result tag with
no grid in it — for every choice of external cubic and linear methods, so
no numerical-library call (and no library exception) is involved. -/
theorem interpolate_insuficiente (cM lM : Interp) (samples : List Sample)
    (n : ℕ) (h : (validSamples samples).length < 3) :
    interpolate cM lM samples n = .insufficientSamples := by
  unfold interpolate
  rw [if_pos h]

theorem interpolate_insuficiente_witness :
    (validSamples amostrasPoucas).length < 3 ∧
    interpolate metodoFalha metodoConstante amostrasPoucas 100 =
      .insufficientSamples :=
  ⟨by decide,
    interpolate_insuficiente metodoFalha metodoConstante amostrasPoucas 100
      (by decide)⟩

/-- C3: the fallback ladder — (i) with exactly 3 valid samples the cubic
method is never consulted (the result is the same for any two cubic
methods); (ii) with the cubic stage raising (`none`) or returning an
all-NaN grid, a usable linear grid becomes the result; (iii) with linear
also raising or all-NaN, the nearest-neighbor grid is the result; (iv) the
nearest-neighbor grid is fully populated for any non-empty valid sample
set (at least 1 valid sample). -/
theorem interpolate_escada_fallback :
    (∀ (cM cM' lM : Interp) (samples : List Sample) (n : ℕ),
      (validSamples samples).length = 3 →
      interpolate cM lM samples n = interpolate cM' lM samples n) ∧
    (∀ (cM lM : Interp) (samples : List Sample) (n : ℕ) (g : Grid),
      3 ≤ (validSamples samples).length →
      ¬(minQ (latsValidas samples) = maxQ (latsValidas samples) ∨
        minQ (lonsValidas samples) = maxQ (lonsValidas samples)) →
      (cM (validSamples samples) (latAxis samples n) (lonAxis samples n) = none ∨
        ∃ gc, cM (validSamples samples) (latAxis samples n) (lonAxis samples n) =
          some gc ∧ allNaN gc = true) →
      lM (validSamples samples) (latAxis samples n) (lonAxis samples n) = some g →
      allNaN g = false →
      interpolate cM lM samples n =
        .ok (latAxis samples n) (lonAxis samples n) g) ∧
    (∀ (cM lM : Interp) (samples : List Sample) (n : ℕ),
      3 ≤ (validSamples samples).length →
      ¬(minQ (latsValidas samples) = maxQ (latsValidas samples) ∨
        minQ (lonsValidas samples) = maxQ (lonsValidas samples)) →
      (cM (validSamples samples) (latAxis samples n) (lonAxis samples n) = none ∨
        ∃ gc, cM (validSamples samples) (latAxis samples n) (lonAxis samples n) =
          some gc ∧ allNaN gc = true) →
      (lM (validSamples samples) (latAxis samples n) (lonAxis samples n) = none ∨
        ∃ gl, lM (validSamples samples) (latAxis samples n) (lonAxis samples n) =
          some gl ∧ allNaN gl = true) →
      interpolate cM lM samples n =
        .ok (latAxis samples n) (lonAxis samples n)
          (nearestGrid (validSamples samples) (latAxis samples n)
            (lonAxis samples n))) ∧
    ∀ (samples : List Sample) (xs ys : List ℚ),
      validSamples samples ≠ [] →
      ∀ row ∈ nearestGrid (validSamples samples) xs ys,
        ∀ c ∈ row, c.isSome = true := by
  refine ⟨?_, ?_, ?_, ?_⟩
  · intro cM cM' lM samples n h3
    rw [interpolate_tres_amostras cM lM samples n h3,
      interpolate_tres_amostras cM' lM samples n h3]
  · intro cM lM samples n g h3 hdeg hcub hlin hnan
    rw [interpolate_eq_ladder cM lM samples n h3 hdeg]
    by_cases h4 : 4 ≤ (validSamples samples).length
    · rw [if_pos h4]
      rcases hcub with hnone | ⟨gc, hgc, hgnan⟩
      · rw [hnone]
        exact fallbackLinear_some lM _ _ _ g hlin hnan
      · rw [hgc]
        dsimp only
        rw [if_pos hgnan]
        exact fallbackLinear_some lM _ _ _ g hlin hnan
    · rw [if_neg h4]
      exact fallbackLinear_some lM _ _ _ g hlin hnan
  · intro cM lM samples n h3 hdeg hcub hlin
    rw [interpolate_eq_ladder cM lM samples n h3 hdeg]
    by_cases h4 : 4 ≤ (validSamples samples).length
    · rw [if_pos h4]
      rcases hcub with hnone | ⟨gc, hgc, hgnan⟩
      · rw [hnone]
        exact fallbackLinear_nearest lM _ _ _ hlin
      · rw [hgc]
        dsimp only
        rw [if_pos hgnan]
        exact fallbackLinear_nearest lM _ _ _ hlin
    · rw [if_neg h4]
      exact fallbackLinear_nearest lM _ _ _ hlin
  · exact nearestGrid_total

theorem interpolate_escada_fallback_witness :
    interpolate metodoFalha metodoConstante amostrasTres 2 =
      interpolate metodoConstante metodoConstante amostrasTres 2 ∧
    interpolate metodoFalha metodoConstante amostrasQuatro 2 =
      .ok (latAxis amostrasQuatro 2) (lonAxis amostrasQuatro 2) [[some 5]] ∧
    interpolate metodoFalha metodoFalha amostrasQuatro 2 =
      .ok (latAxis amostrasQuatro 2) (lonAxis amostrasQuatro 2)
        (nearestGrid (validSamples amostrasQuatro) (latAxis amostrasQuatro 2)
          (lonAxis amostrasQuatro 2)) ∧
    ∀ row ∈ nearestGrid (validSamples amostrasQuatro) (latAxis amostrasQuatro 2)
        (lonAxis amostrasQuatro 2), ∀ c ∈ row, c.isSome = true :=
  ⟨interpolate_escada_fallback.1 metodoFalha metodoConstante metodoConstante
      amostrasTres 2 (by decide),
    interpolate_escada_fallback.2.1 metodoFalha metodoConstante amostrasQuatro 2
      [[some 5]] (by decide) (by decide) (Or.inl rfl) rfl (by decide),
    interpolate_escada_fallback.2.2.1 metodoFalha metodoFalha amostrasQuatro 2
      (by decide) (by decide) (Or.inl rfl) (Or.inl rfl),
    interpolate_escada_fallback.2.2.2 amostrasQuatro (latAxis amostrasQuatro 2)
      (lonAxis amostrasQuatro 2) (by decide)⟩

/-- C4 (amended): for every SampleSet with at least 3 valid samples whose
valid-sample bounding box has zero extent in either axis, `interpolate`
signals `DegenerateGeometry` instead of attempting interpolation; with
fewer than 3 valid samples the `InsufficientSamples` guard takes
precedence (see the counterexample). -/
theorem interpolate_degenerada (cM lM : Interp) (samples : List Sample)
    (n : ℕ) (h3 : 3 ≤ (validSamples samples).length)
    (hdeg : minQ (latsValidas samples) = maxQ (latsValidas samples) ∨
      minQ (lonsValidas samples) = maxQ (lonsValidas samples)) :
    interpolate cM lM samples n = .degenerateGeometry := by
  unfold interpolate
  rw [if_neg (by omega), if_pos hdeg]

/-- C4 counterexample: a SampleSet of two valid samples on one latitude
has a zero-extent bounding box, yet `interpolate` signals
`InsufficientSamples`, not `DegenerateGeometry` — the sample-count guard
runs first. -/
theorem interpolate_degenerada_cex :
    latsValidas amostrasDegeneradas = [1, 1] ∧
    interpolate metodoFalha metodoFalha amostrasDegeneradas 100 =
      .insufficientSamples ∧
    interpolate metodoFalha metodoFalha amostrasDegeneradas 100 ≠
      .degenerateGeometry :=
  ⟨by decide, by decide, by decide⟩

theorem interpolate_degenerada_witness :
    3 ≤ (validSamples amostrasDegeneradasTres).length ∧
    (minQ (latsValidas amostrasDegeneradasTres) =
        maxQ (latsValidas amostrasDegeneradasTres) ∨
      minQ (lonsValidas amostrasDegeneradasTres) =
        maxQ (lonsValidas amostrasDegeneradasTres)) ∧
    interpolate metodoFalha metodoFalha amostrasDegeneradasTres 7 =
      .degenerateGeometry :=
  ⟨by decide, Or.inl (by decide),
    interpolate_degenerada metodoFalha metodoFalha amostrasDegeneradasTres 7
      (by decide) (Or.inl (by decide))⟩

theorem amostrasQuatro_nao_colineares :
    ¬ collinearPts (coordsValidas amostrasQuatro) := by
  rintro ⟨a, b, c, hab, h⟩
  have h1 := h (0, 0) (by decide)
  have h2 := h (0, 1) (by decide)
  have h3 := h (1, 0) (by decide)
  simp only [mul_zero, mul_one, zero_add, add_zero] at h1 h2 h3
  exact hab ⟨by linarith, by linarith⟩

/-- C5 (amended): for every SampleSet with at least 4 non-collinear valid
samples, resolution n at least 2, and external methods that return grids
matching the query axes (scipy's contract), `interpolate` returns the two
linspace axes — strictly increasing, of length exactly n, containing the
minimum and maximum valid latitude/longitude and staying inside those
bounds (exact span) — together with a grid of n rows of n cells. -/
theorem interpolate_malha (cM lM : Interp) (samples : List Sample) (n : ℕ)
    (hc : ∀ v xs ys g, cM v xs ys = some g →
      g.length = xs.length ∧ ∀ row ∈ g, row.length = ys.length)
    (hl : ∀ v xs ys g, lM v xs ys = some g →
      g.length = xs.length ∧ ∀ row ∈ g, row.length = ys.length)
    (hn : 2 ≤ n) (h4 : 4 ≤ (validSamples samples).length)
    (hnc : ¬ collinearPts (coordsValidas samples)) :
    ∃ g, interpolate cM lM samples n =
        .ok (latAxis samples n) (lonAxis samples n) g ∧
      (latAxis samples n).length = n ∧ (lonAxis samples n).length = n ∧
      (latAxis samples n).Pairwise (· < ·) ∧
      (lonAxis samples n).Pairwise (· < ·) ∧
      minQ (latsValidas samples) ∈ latAxis samples n ∧
      maxQ (latsValidas samples) ∈ latAxis samples n ∧
      minQ (lonsValidas samples) ∈ lonAxis samples n ∧
      maxQ (lonsValidas samples) ∈ lonAxis samples n ∧
      (∀ x ∈ latAxis samples n,
        minQ (latsValidas samples) ≤ x ∧ x ≤ maxQ (latsValidas samples)) ∧
      (∀ y ∈ lonAxis samples n,
        minQ (lonsValidas samples) ≤ y ∧ y ≤ maxQ (lonsValidas samples)) ∧
      g.length = n ∧ ∀ row ∈ g, row.length = n := by
  have hvne : validSamples samples ≠ [] := by
    intro h0
    rw [h0] at h4
    simp at h4
  have hlne : latsValidas samples ≠ [] := fun h0 =>
    hvne (List.map_eq_nil_iff.mp h0)
  have holne : lonsValidas samples ≠ [] := fun h0 =>
    hvne (List.map_eq_nil_iff.mp h0)
  obtain ⟨hne1, hne2⟩ := naoColinear_extensao samples hvne hnc
  have hlat := minQ_lt_maxQ_of_ne _ hlne hne1
  have hlon := minQ_lt_maxQ_of_ne _ holne hne2
  have hdeg : ¬(minQ (latsValidas samples) = maxQ (latsValidas samples) ∨
      minQ (lonsValidas samples) = maxQ (lonsValidas samples)) := by
    rintro (h | h)
    · exact hne1 h
    · exact hne2 h
  obtain ⟨g, hg, hgl, hgr⟩ : ∃ g, interpolate cM lM samples n =
      .ok (latAxis samples n) (lonAxis samples n) g ∧
      g.length = (latAxis samples n).length ∧
      ∀ row ∈ g, row.length = (lonAxis samples n).length := by
    rw [interpolate_eq_ladder cM lM samples n (by omega) hdeg, if_pos h4]
    cases hcb : cM (validSamples samples) (latAxis samples n) (lonAxis samples n) with
    | none =>
      exact fallbackLinear_shape lM (validSamples samples) _ _ hl
    | some gc =>
      by_cases hnan : allNaN gc
      · dsimp only
        rw [if_pos hnan]
        exact fallbackLinear_shape lM (validSamples samples) _ _ hl
      · dsimp only
        rw [if_neg hnan]
        exact ⟨gc, rfl, (hc _ _ _ _ hcb).1, (hc _ _ _ _ hcb).2⟩
  refine ⟨g, hg, linspace_length _ _ _, linspace_length _ _ _,
    linspace_pairwise _ _ _ hlat hn, linspace_pairwise _ _ _ hlon hn,
    linspace_mem_left _ _ _ (by omega), linspace_mem_right _ _ _ hn,
    linspace_mem_left _ _ _ (by omega), linspace_mem_right _ _ _ hn,
    linspace_bounds _ _ _ (le_of_lt hlat) hn,
    linspace_bounds _ _ _ (le_of_lt hlon) hn, ?_, ?_⟩
  · rw [hgl]
    exact linspace_length _ _ _
  · intro row hrow
    rw [hgr row hrow]
    exact linspace_length _ _ _

/-- C5 counterexample: at the requested resolution n = 1 the returned axis
is the single point at the minimum, so it has length n but does not reach
the maximum latitude of the samples — the axes do not span the bounding
box.  The amendment therefore requires n at least 2. -/
theorem interpolate_malha_cex :
    4 ≤ (validSamples amostrasQuatro).length ∧
    ¬ collinearPts (coordsValidas amostrasQuatro) ∧
    maxQ (latsValidas amostrasQuatro) = 1 ∧
    latAxis amostrasQuatro 1 = [0] ∧
    (1 : ℚ) ∉ latAxis amostrasQuatro 1 ∧
    interpolate metodoFalha metodoFalha amostrasQuatro 1 =
      .ok (latAxis amostrasQuatro 1) (lonAxis amostrasQuatro 1)
        (nearestGrid (validSamples amostrasQuatro) (latAxis amostrasQuatro 1)
          (lonAxis amostrasQuatro 1)) := by
  have hax : latAxis amostrasQuatro 1 = [0] := by
    show linspace (minQ (latsValidas amostrasQuatro))
      (maxQ (latsValidas amostrasQuatro)) 1 = [0]
    have h1 : minQ (latsValidas amostrasQuatro) = 0 := by decide
    have h2 : maxQ (latsValidas amostrasQuatro) = 1 := by decide
    rw [h1, h2]
    norm_num [linspace, List.range_succ]
  refine ⟨by decide, amostrasQuatro_nao_colineares, by decide, hax, ?_, ?_⟩
  · rw [hax]
    decide
  · rw [interpolate_eq_ladder _ _ _ _ (by decide) (by decide),
      if_pos (by decide : 4 ≤ (validSamples amostrasQuatro).length)]
    exact fallbackLinear_nearest metodoFalha _ _ _ (Or.inl rfl)

theorem interpolate_malha_witness :
    (2 ≤ 2 ∧ 4 ≤ (validSamples amostrasQuatro).length ∧
      ¬ collinearPts (coordsValidas amostrasQuatro)) ∧
    ∃ g, interpolate metodoFalha metodoFalha amostrasQuatro 2 =
        .ok (latAxis amostrasQuatro 2) (lonAxis amostrasQuatro 2) g ∧
      (latAxis amostrasQuatro 2).length = 2 ∧ (lonAxis amostrasQuatro 2).length = 2 ∧
      (latAxis amostrasQuatro 2).Pairwise (· < ·) ∧
      (lonAxis amostrasQuatro 2).Pairwise (· < ·) ∧
      minQ (latsValidas amostrasQuatro) ∈ latAxis amostrasQuatro 2 ∧
      maxQ (latsValidas amostrasQuatro) ∈ latAxis amostrasQuatro 2 ∧
      minQ (lonsValidas amostrasQuatro) ∈ lonAxis amostrasQuatro 2 ∧
      maxQ (lonsValidas amostrasQuatro) ∈ lonAxis amostrasQuatro 2 ∧
      (∀ x ∈ latAxis amostrasQuatro 2,
        minQ (latsValidas amostrasQuatro) ≤ x ∧
          x ≤ maxQ (latsValidas amostrasQuatro)) ∧
      (∀ y ∈ lonAxis amostrasQuatro 2,
        minQ (lonsValidas amostrasQuatro) ≤ y ∧
          y ≤ maxQ (lonsValidas amostrasQuatro)) ∧
      g.length = 2 ∧ ∀ row ∈ g, row.length = 2 :=
  ⟨⟨by omega, by decide, amostrasQuatro_nao_colineares⟩,
    interpolate_malha metodoFalha metodoFalha amostrasQuatro 2
      (fun _ _ _ _ h => Option.noConfusion h)
      (fun _ _ _ _ h => Option.noConfusion h)
      (by omega) (by decide) amostrasQuatro_nao_colineares⟩
